import Mathlib

/-!
Verification of the core content-driven navigation and scoring engine of the
ld50 visual-novel presentation (src/main.rs).

The embedding models the content data types (`Line`, `Button`, `Page`, `Book`),
the navigation state (`TextSystem`) and its operations (`current_page`,
`move_next`, `jump_to`, `page_by_name`, `spawn_leaderboard`, the input-handling
part of `update`), and the leaderboard lifecycle (eviction loop, stable ranked
view).

Modelling conventions:
- Rust `HashMap<String, Button>` values are modelled as association lists in
  their (implementation-defined) iteration order; keys are unique in the real
  map, which matters only where stated.
- `f32` values occurring in the content model are exact small decimals here
  (30.0, 0.0), modelled by `Rat`.
- `u32` / `usize` counters are modelled by `Nat` (no claim involves overflow).
- Operations that can panic in Rust (`unwrap` on `None`, out-of-bounds `Vec`
  indexing) return `Except String _`, with `.error` marking a panic.
- Purely presentational work (spawning UI nodes, fonts, images, the
  `root_node` entity, colors actually drawn) is not part of the navigation
  state; `setup_page` is modelled by its state reads (the `unwrap` of the book
  and the indexing of `book.pages[self.page_index]`, which can panic) since it
  mutates no navigation field.
- Timestamps (`Utc::now`) are an opaque instant, modelled by a `Nat` parameter.
-/

namespace LD50

/-- Text alignment of a line (enum TextAlign in main.rs). -/
inductive TextAlign
  | Start
  | Center
  | End
deriving DecidableEq

/-- The bevy JustifyContent values used by `Page.align` (display hint only). -/
inductive JustifyContent
  | FlexStart
  | FlexEnd
  | Center
  | SpaceBetween
  | SpaceAround
deriving DecidableEq

/-- An RGBA color (bevy `Color`), display data only. -/
structure Color where
  r : Rat
  g : Rat
  b : Rat
  a : Rat
deriving DecidableEq

/-- enum ButtonAction: the navigation effect of a button press. -/
inductive ButtonAction
  | NextPage
  | JumpToPage (target : String)
  | JumpToEnd
deriving DecidableEq

/-- struct Line: one line of text on a page. -/
structure Line where
  text : String
  align : Option TextAlign
  color : Option Color
  size : Option Rat
deriving DecidableEq

/-- struct Button: a button caption and its action. -/
structure Button where
  text : String
  action : ButtonAction
deriving DecidableEq

/-- struct Page. The `buttons` map is kept as an association list in iteration
order. -/
structure Page where
  name : Option String
  is_final : Bool
  lines : List Line
  buttons : Option (List (String × Button))
  background_color : Option Color
  align : Option JustifyContent
deriving DecidableEq

/-- struct Book. -/
structure Book where
  pages : List Page
  line_spacing : Rat
  default_buttons : List (String × Button)
deriving DecidableEq

/-- impl Default for Book (main.rs lines 86-94): the hand-written default value,
with `line_spacing: 30.0`. -/
def Book.defaultValue : Book :=
  { pages := [], line_spacing := 30, default_buttons := [] }

/-- serde deserialization of `Book` from a content file (derive(Deserialize) on
`Book`, main.rs lines 78-84): `pages` and `default_buttons` are required
fields; `line_spacing` carries the field-level serde `default` attribute, so
when the field is missing from the document it is filled with the field type's
default value, `f32::default()` = `0.0` — not with `Book::default()`, which is
a container-level mechanism this struct does not enable. -/
def parseBook (pages : List Page) (line_spacing : Option Rat)
    (default_buttons : List (String × Button)) : Book :=
  { pages := pages
    line_spacing := line_spacing.getD 0
    default_buttons := default_buttons }

/-- serde deserialization of `Page` w.r.t. its defaulted field: `is_final`
carries the field-level serde `default` attribute (`bool::default()` =
`false`). -/
def parsePageIsFinal (is_final : Option Bool) : Bool :=
  is_final.getD false

/-- struct Score: one completed run (main.rs lines 99-103). `date` is an opaque
instant. -/
structure Score where
  date : Nat
  page_read : Nat
deriving DecidableEq

/-- The navigation-relevant state of struct TextSystem (main.rs lines 105-119).
Rendering-only fields (asset handles, fonts, default display colors/sizes,
button images, the `root_node` entity) are omitted: no navigation decision
reads them. -/
structure TextSystem where
  book : Option Book
  page_index : Nat
  page_read : Nat
  scores : List Score
  is_scoreboard : Bool
deriving DecidableEq

/-- impl Default for TextSystem (main.rs lines 121-138), restricted to the
navigation fields; `TextSystem::new` keeps these defaults. -/
def TextSystem.init : TextSystem :=
  { book := none
    page_index := 0
    page_read := 0
    scores := []
    is_scoreboard := false }

/-- TextSystem::current_page (main.rs lines 236-243): the page at
`page_index`, when a book is loaded and the index is in range. Note that the
function does not look at `is_scoreboard`. -/
def TextSystem.current_page (s : TextSystem) : Option Page :=
  match s.book with
  | some book => book.pages[s.page_index]?
  | none => none

/-- TextSystem::setup_page (main.rs lines 284-345) as seen by the navigation
state: it despawns and respawns UI only, mutating no navigation field, but it
unwraps `self.book` and indexes `book.pages[self.page_index]`, either of which
panics when the book is absent or the index is out of range. -/
def TextSystem.setup_page (s : TextSystem) : Except String TextSystem :=
  match s.book with
  | none => .error "setup_page: unwrap on empty book"
  | some book =>
    match book.pages[s.page_index]? with
    | some _ => .ok s
    | none => .error "setup_page: page index out of range"

/-- TextSystem::move_next (main.rs lines 246-250): clear, increment
`page_index`, then `setup_page` (which panics when the new index is out of
range). -/
def TextSystem.move_next (s : TextSystem) : Except String TextSystem :=
  TextSystem.setup_page { s with page_index := s.page_index + 1 }

/-- The loop body of TextSystem::page_by_name (main.rs lines 262-273): scan
pages by ascending index for the first whose `name` equals the target. -/
def findPageIdx (name : String) : List Page → Option Nat
  | [] => none
  | p :: ps =>
    if p.name = some name then some 0
    else (findPageIdx name ps).map (· + 1)

/-- TextSystem::page_by_name (main.rs lines 262-273). -/
def TextSystem.page_by_name (s : TextSystem) (name : String) : Option Nat :=
  match s.book with
  | some book => findPageIdx name book.pages
  | none => none

/-- TextSystem::jump_to (main.rs lines 253-259): clear, then if the name
resolves, move to that index and `setup_page`; otherwise leave the navigation
state unchanged. -/
def TextSystem.jump_to (s : TextSystem) (name : String) : Except String TextSystem :=
  match s.page_by_name name with
  | some page_index => TextSystem.setup_page { s with page_index := page_index }
  | none => .ok s

/-- The eviction loop of TextSystem::spawn_leaderboard (main.rs lines 454-456):
`while self.scores.len() >= 10 { self.scores.remove(0); }` — remove the oldest
(front) entry while at least 10 entries are stored. -/
def evictLoop : List Score → List Score
  | [] => []
  | sc :: rest =>
    if 10 ≤ (sc :: rest).length then evictLoop rest else sc :: rest

/-- The score-recording step of TextSystem::spawn_leaderboard (main.rs lines
453-460): evict while full, then push the new score at the back. -/
def record (scores : List Score) (sc : Score) : List Score :=
  evictLoop scores ++ [sc]

/-- The ranked scoreboard view (main.rs lines 462-464):
`let mut sorted_scores = self.scores.clone();` followed by a stable
`sort_by(|a, b| b.page_read.cmp-style comparison a)` — i.e. a stable sort of a
copy, descending by `page_read`. Rust's stable `sort_by` with this comparator
is modelled by `List.mergeSort` (a stable merge sort) with the total relation
"may come first" `fun a b => b.page_read ≤ a.page_read`. -/
def rankedView (scores : List Score) : List Score :=
  scores.mergeSort (fun a b => decide (b.page_read ≤ a.page_read))

/-- TextSystem::spawn_leaderboard (main.rs lines 450-602), navigation-state
part: record the score of the finished run (evicting while full), switch to
scoreboard mode. The sorted copy `rankedView` is only displayed; the store
keeps insertion order. -/
def TextSystem.spawn_leaderboard (s : TextSystem) (now : Nat) : TextSystem :=
  { s with
    scores := record s.scores { date := now, page_read := s.page_read }
    is_scoreboard := true }

/-- The input names the scan loop of TextSystem::update recognizes (main.rs
lines 194-217): each is compared together with its keyboard key. -/
def knownInputs : List String :=
  ["space", "y", "n", "m", "1", "2", "3"]

/-- One arm of the scan loop (main.rs lines 195-216): a map entry matches when
its key is one of the seven recognized names and that key was just pressed
this tick. `pressed` gives the just-pressed state of the key named by each
recognized input name. -/
def entryMatches (pressed : String → Bool) (e : String × Button) : Bool :=
  knownInputs.contains e.1 && pressed e.1

/-- The scan loop of TextSystem::update (main.rs lines 193-217): iterate over
the button mapping, overwriting `action` each time an entry matches. There is
no break, so the action kept is the one of the LAST matching entry in
iteration order. -/
def scanButtons (buttons : List (String × Button)) (pressed : String → Bool) :
    Option ButtonAction :=
  buttons.foldl
    (fun action e => if entryMatches pressed e then some e.2.action else action)
    none

/-- The button-mapping lookup of TextSystem::update (main.rs lines 187-191):
the page's own mapping when present, else the book's `default_buttons`
(unwrapping the book, which is loaded whenever a current page exists). -/
def resolveButtons (s : TextSystem) (page : Page) :
    Except String (List (String × Button)) :=
  match page.buttons with
  | some buttons => .ok buttons
  | none =>
    match s.book with
    | some book => .ok book.default_buttons
    | none => .error "update: unwrap on empty book"

/-- The input-handling part of TextSystem::update (main.rs lines 176-232).
In scoreboard mode, only "space" restarts (page 0, reading mode, run counter
reset, `setup_page`). In reading mode with an active page: scan the buttons;
on a match, override the action with `JumpToEnd` when the page is final,
increment `page_read`, then apply the action. -/
def TextSystem.inputStep (s : TextSystem) (pressed : String → Bool) (now : Nat) :
    Except String TextSystem :=
  if s.is_scoreboard then
    if pressed "space" then
      TextSystem.setup_page
        { s with page_index := 0, is_scoreboard := false, page_read := 0 }
    else
      .ok s
  else
    match s.current_page with
    | none => .ok s
    | some page =>
      match resolveButtons s page with
      | .error e => .error e
      | .ok buttons =>
        match scanButtons buttons pressed with
        | none => .ok s
        | some matched =>
          let action := if page.is_final then ButtonAction.JumpToEnd else matched
          let s' : TextSystem := { s with page_read := s.page_read + 1 }
          match action with
          | .NextPage => s'.move_next
          | .JumpToPage target => s'.jump_to target
          | .JumpToEnd => .ok (s'.spawn_leaderboard now)

/-- The asset-loading part of TextSystem::update (main.rs lines 163-174), run
when no book is loaded yet and the parsed content asset `book` is available:
store the book, reset `page_index` to 0, and `setup_page` when the book has at
least one page. -/
def TextSystem.loadStep (s : TextSystem) (book : Book) : Except String TextSystem :=
  let has_page := !book.pages.isEmpty
  let s' : TextSystem := { s with book := some book, page_index := 0 }
  if has_page then s'.setup_page else .ok s'

/-- TextSystem::update (main.rs lines 156-233): the load phase followed by the
input phase within the same tick. `asset` is the parsed content document when
the text asset has loaded. -/
def TextSystem.update (s : TextSystem) (asset : Option Book)
    (pressed : String → Bool) (now : Nat) : Except String TextSystem :=
  match s.book, asset with
  | none, some book =>
    match s.loadStep book with
    | .ok s' => s'.inputStep pressed now
    | .error e => .error e
  | _, _ => s.inputStep pressed now

/-- Every state in scoreboard mode has a loaded book with at least one page. -/
def ScoreboardInv (s : TextSystem) : Prop :=
  s.is_scoreboard = true → ∃ book, s.book = some book ∧ book.pages ≠ []

/-- The states the engine can reach: the initial state, closed under ticks of
update (with any content asset, input state, and clock). -/
inductive Reachable : TextSystem → Prop
  | init : Reachable TextSystem.init
  | step {s s' : TextSystem} (asset : Option Book) (pressed : String → Bool) (now : Nat) :
      Reachable s → s.update asset pressed now = .ok s' → Reachable s'

/-- Concrete page builder for test fixtures: empty lines and no display hints. -/
def mkPage (name : Option String) (is_final : Bool)
    (buttons : Option (List (String × Button))) : Page :=
  { name := name, is_final := is_final, lines := [], buttons := buttons
    background_color := none, align := none }

def c1Page : Page := mkPage (some "only") false (some [("space", ⟨"Next", .NextPage⟩)])

def c1Book : Book := { pages := [c1Page], line_spacing := 30, default_buttons := [] }

def c1State : TextSystem :=
  { book := some c1Book, page_index := 0, page_read := 0, scores := [], is_scoreboard := false }

def c1Pressed : String → Bool := fun n => n == "space"

def c2Scores : List Score := (List.range 11).map (fun i => { date := i, page_read := i })

def c2Ten : List Score := (List.range 10).map (fun i => { date := i, page_read := i })

def c3Buttons : List (String × Button) :=
  [("y", ⟨"Yes", .NextPage⟩), ("n", ⟨"No", .JumpToEnd⟩)]

def c3Pressed : String → Bool := fun n => n == "y" || n == "n"

def c3Page : Page := mkPage (some "p") false (some c3Buttons)

def c3Book : Book :=
  { pages := [c3Page, mkPage (some "q") false none], line_spacing := 30, default_buttons := [] }

def c3State : TextSystem :=
  { book := some c3Book, page_index := 0, page_read := 0, scores := [], is_scoreboard := false }

def c5Page : Page := mkPage (some "p0") false none

def c5Book : Book := { pages := [c5Page], line_spacing := 30, default_buttons := [] }

def c5State : TextSystem :=
  { book := some c5Book, page_index := 0, page_read := 2, scores := [], is_scoreboard := true }

def c6Page : Page := mkPage (some "end") true (some [("space", ⟨"Next", .NextPage⟩)])

def c6Book : Book := { pages := [c6Page], line_spacing := 30, default_buttons := [] }

def c6State : TextSystem :=
  { book := some c6Book, page_index := 0, page_read := 3, scores := [], is_scoreboard := false }

def c6Pressed : String → Bool := fun n => n == "space"

def c7Target : Page := mkPage (some "target") false none

def c7Page : Page :=
  mkPage (some "start") false
    (some [("y", ⟨"Go", .JumpToPage "target"⟩), ("n", ⟨"Nowhere", .JumpToPage "missing"⟩)])

def c7Book : Book :=
  { pages := [c7Page, c7Target], line_spacing := 30, default_buttons := [] }

def c7State : TextSystem :=
  { book := some c7Book, page_index := 0, page_read := 1, scores := [], is_scoreboard := false }

def c7Pressed : String → Bool := fun n => n == "n"

def c8Scores : List Score := [⟨0, 3⟩, ⟨1, 5⟩, ⟨2, 3⟩]

def c8State : TextSystem :=
  { book := none, page_index := 0, page_read := 4, scores := c8Scores, is_scoreboard := false }

def c9Book : Book := { pages := [mkPage (some "p0") false none], line_spacing := 30, default_buttons := [] }

def c9State : TextSystem :=
  { book := some c9Book, page_index := 0, page_read := 6, scores := [⟨0, 6⟩], is_scoreboard := true }

def c9Pressed : String → Bool := fun n => n == "space"

def c10Book : Book :=
  { pages := [mkPage (some "intro") false none], line_spacing := 30, default_buttons := [] }

lemma evictLoop_of_length_lt {l : List Score} (h : l.length < 10) : evictLoop l = l := by
  cases l with
  | nil => rfl
  | cons sc rest =>
    rw [evictLoop]
    rw [if_neg (by omega)]

lemma evictLoop_of_length_eq {l : List Score} (h : l.length = 10) : evictLoop l = l.tail := by
  cases l with
  | nil => simp at h
  | cons sc rest =>
    rw [evictLoop, if_pos (by omega)]
    rw [evictLoop_of_length_lt (by simp at h; omega)]
    rfl

lemma record_length_eq_ten {l : List Score} (sc : Score) (h : l.length = 10) :
    record l sc = l.tail ++ [sc] := by
  rw [record, evictLoop_of_length_eq h]

lemma foldl_record_eq (xs : List Score) :
    xs.foldl record [] = xs.drop (xs.length - 10) := by
  induction xs using List.reverseRecOn with
  | nil => rfl
  | append_singleton xs c ih =>
    rw [List.foldl_append, List.foldl_cons, List.foldl_nil, ih]
    by_cases h : xs.length < 10
    · rw [Nat.sub_eq_zero_of_le (by omega), List.drop_zero, record,
        evictLoop_of_length_lt h, List.length_append]
      simp only [List.length_cons, List.length_nil]
      rw [Nat.sub_eq_zero_of_le (by omega), List.drop_zero]
    · push_neg at h
      have hm : (xs.drop (xs.length - 10)).length = 10 := by
        rw [List.length_drop]; omega
      have hlen : (xs ++ [c]).length = xs.length + 1 := by simp
      rw [record_length_eq_ten _ hm, List.tail_drop, hlen,
        show xs.length - 10 + 1 = xs.length - 9 from by omega,
        show xs.length + 1 - 10 = xs.length - 9 from by omega,
        List.drop_append_of_le_length (by omega)]

lemma setup_page_ok {s : TextSystem} {book : Book} (hb : s.book = some book)
    (h : s.page_index < book.pages.length) : s.setup_page = .ok s := by
  have hg : book.pages[s.page_index]? = some (book.pages.get ⟨s.page_index, h⟩) := by
    rw [List.getElem?_eq_getElem h]; rfl
  simp only [TextSystem.setup_page, hb, hg]

lemma setup_page_eq_ok {t s' : TextSystem} (h : t.setup_page = .ok s') : s' = t := by
  rw [TextSystem.setup_page] at h
  split at h
  · cases h
  · split at h
    · cases h; rfl
    · cases h

lemma findPageIdx_spec {name : String} :
    ∀ {ps : List Page} {i : Nat}, findPageIdx name ps = some i →
      i < ps.length ∧ ∃ p, ps[i]? = some p ∧ p.name = some name := by
  intro ps
  induction ps with
  | nil => intro i h; simp [findPageIdx] at h
  | cons p rest ih =>
    intro i h
    rw [findPageIdx] at h
    by_cases hp : p.name = some name
    · rw [if_pos hp] at h
      cases h
      exact ⟨by simp, p, by simp, hp⟩
    · rw [if_neg hp] at h
      rcases Option.map_eq_some'.mp h with ⟨j, hj, hi⟩
      rcases ih hj with ⟨hlt, q, hq, hqn⟩
      subst hi
      exact ⟨by simpa using Nat.succ_lt_succ hlt, q, by simpa using hq, hqn⟩

lemma findPageIdx_first {name : String} :
    ∀ {ps : List Page} {i : Nat}, findPageIdx name ps = some i →
      ∀ j < i, ∀ pj, ps[j]? = some pj → pj.name ≠ some name := by
  intro ps
  induction ps with
  | nil => intro i h; simp [findPageIdx] at h
  | cons p rest ih =>
    intro i h j hj pj hpj
    rw [findPageIdx] at h
    by_cases hp : p.name = some name
    · rw [if_pos hp] at h
      cases h
      omega
    · rw [if_neg hp] at h
      rcases Option.map_eq_some'.mp h with ⟨k, hk, hi⟩
      subst hi
      cases j with
      | zero =>
        simp only [List.getElem?_cons_zero, Option.some.injEq] at hpj
        subst hpj; exact hp
      | succ j' =>
        simp only [List.getElem?_cons_succ] at hpj
        exact ih hk j' (by omega) pj hpj

lemma rankedView_perm (l : List Score) : List.Perm (rankedView l) l :=
  List.mergeSort_perm l _

lemma scoreLE_trans (a b c : Score) :
    (decide (b.page_read ≤ a.page_read)) → (decide (c.page_read ≤ b.page_read)) →
    (decide (c.page_read ≤ a.page_read)) := by
  simp; omega

lemma scoreLE_total (a b : Score) :
    (decide (b.page_read ≤ a.page_read)) || (decide (a.page_read ≤ b.page_read)) := by
  simp; omega

lemma rankedView_sorted (l : List Score) :
    (rankedView l).Pairwise (fun a b => b.page_read ≤ a.page_read) := by
  have h := @List.sorted_mergeSort Score
    (fun a b : Score => decide (b.page_read ≤ a.page_read))
    scoreLE_trans scoreLE_total l
  exact h.imp (fun {a b} hab => by simpa using hab)

lemma rankedView_stable (l : List Score) (k : Nat) :
    (rankedView l).filter (fun sc => sc.page_read == k) =
      l.filter (fun sc => sc.page_read == k) := by
  set p : Score → Bool := fun sc => sc.page_read == k with hp
  have hperm : List.Perm ((rankedView l).filter p) (l.filter p) :=
    (List.mergeSort_perm l _).filter p
  have hsub : List.Sublist (l.filter p) (rankedView l) := by
    apply List.sublist_mergeSort scoreLE_trans scoreLE_total
    · apply List.pairwise_of_forall_mem_list
      intro a ha b hb
      have hpa := List.of_mem_filter ha
      have hpb := List.of_mem_filter hb
      simp only [hp, beq_iff_eq] at hpa hpb
      simp [hpa, hpb]
    · exact List.filter_sublist l
  have hself : (l.filter p).filter p = l.filter p :=
    List.filter_eq_self.mpr (fun a ha => List.of_mem_filter ha)
  have hsub2 : List.Sublist (l.filter p) ((rankedView l).filter p) := by
    have := hsub.filter p
    rwa [hself] at this
  exact (hsub2.eq_of_length hperm.symm.length_eq).symm

lemma inputStep_reading {s : TextSystem} {page : Page} {buttons : List (String × Button)}
    {matched : ButtonAction} (pressed : String → Bool) (now : Nat)
    (hsb : s.is_scoreboard = false)
    (hpage : s.current_page = some page)
    (hbtns : resolveButtons s page = .ok buttons)
    (hscan : scanButtons buttons pressed = some matched) :
    s.inputStep pressed now =
      (match (if page.is_final then ButtonAction.JumpToEnd else matched) with
       | .NextPage => TextSystem.move_next { s with page_read := s.page_read + 1 }
       | .JumpToPage target => TextSystem.jump_to { s with page_read := s.page_read + 1 } target
       | .JumpToEnd =>
         .ok (TextSystem.spawn_leaderboard { s with page_read := s.page_read + 1 } now)) := by
  simp only [TextSystem.inputStep, hsb, hpage, hbtns, hscan, Bool.false_eq_true, if_false]

lemma scan_foldl_aux (pressed : String → Bool) :
    ∀ (buttons : List (String × Button)) (acc : Option ButtonAction),
      buttons.foldl
        (fun action e => if entryMatches pressed e then some e.2.action else action) acc =
      match buttons.reverse.find? (entryMatches pressed) with
      | some e => some e.2.action
      | none => acc := by
  intro buttons
  induction buttons with
  | nil => intro acc; rfl
  | cons x xs ih =>
    intro acc
    rw [List.foldl_cons, ih, List.reverse_cons, List.find?_append]
    cases hfind : xs.reverse.find? (entryMatches pressed) with
    | some e => simp [Option.or]
    | none =>
      by_cases hx : entryMatches pressed x
      · simp [Option.or, hx]
      · simp [Option.or, hx]

lemma scanButtons_eq_last_match (buttons : List (String × Button)) (pressed : String → Bool) :
    scanButtons buttons pressed =
      (buttons.reverse.find? (entryMatches pressed)).map (fun e => e.2.action) := by
  rw [scanButtons, scan_foldl_aux]
  cases buttons.reverse.find? (entryMatches pressed) <;> simp

lemma inputStep_preserves_inv {s s' : TextSystem} (pressed : String → Bool) (now : Nat)
    (hinv : ScoreboardInv s) (h : s.inputStep pressed now = .ok s') : ScoreboardInv s' := by
  by_cases hsb : s.is_scoreboard = true
  · simp only [TextSystem.inputStep, hsb, if_true] at h
    by_cases hp : pressed "space" = true
    · simp only [hp, if_true] at h
      have := setup_page_eq_ok h
      subst this
      intro hc
      exact (Bool.false_ne_true hc).elim
    · simp only [if_neg hp] at h
      cases h
      exact hinv
  · have hsb' : s.is_scoreboard = false := by
      revert hsb; cases s.is_scoreboard <;> simp
    simp only [TextSystem.inputStep, hsb', Bool.false_eq_true, if_false] at h
    cases hpage : s.current_page with
    | none =>
      simp only [hpage] at h
      cases h
      exact hinv
    | some page =>
      simp only [hpage] at h
      cases hbtns : resolveButtons s page with
      | error e =>
        rw [hbtns] at h
        cases h
      | ok buttons =>
        rw [hbtns] at h
        cases hscan : scanButtons buttons pressed with
        | none =>
          simp only [hscan] at h
          cases h
          exact hinv
        | some matched =>
          simp only [hscan] at h
          cases hact : (if page.is_final then ButtonAction.JumpToEnd else matched) with
          | NextPage =>
            rw [hact] at h
            simp only [TextSystem.move_next] at h
            have := setup_page_eq_ok h
            subst this
            intro hc
            exact (Bool.false_ne_true hc).elim
          | JumpToPage target =>
            rw [hact] at h
            simp only [TextSystem.jump_to] at h
            cases hpbn : TextSystem.page_by_name
                { s with page_read := s.page_read + 1, is_scoreboard := false } target with
            | none =>
              rw [hpbn] at h
              cases h
              intro hc
              exact (Bool.false_ne_true hc).elim
            | some i =>
              rw [hpbn] at h
              have := setup_page_eq_ok h
              subst this
              intro hc
              exact (Bool.false_ne_true hc).elim
          | JumpToEnd =>
            rw [hact] at h
            cases h
            intro _
            rw [TextSystem.current_page] at hpage
            cases hbs : s.book with
            | none => rw [hbs] at hpage; cases hpage
            | some book =>
              refine ⟨book, ?_, ?_⟩
              · simp [TextSystem.spawn_leaderboard, hbs]
              · simp only [hbs] at hpage
                intro hnil
                rw [hnil] at hpage
                simp at hpage

lemma loadStep_scoreboard {s s' : TextSystem} {book : Book}
    (hsb : s.is_scoreboard = false) (h : s.loadStep book = .ok s') :
    s'.is_scoreboard = false := by
  rw [TextSystem.loadStep] at h
  split at h
  · have := setup_page_eq_ok h
    subst this
    exact hsb
  · cases h
    exact hsb

lemma reachable_inv {s : TextSystem} (h : Reachable s) : ScoreboardInv s := by
  induction h with
  | init => intro hc; cases hc
  | step asset pressed now hr hstep ih =>
    rename_i t t'
    cases hbt : t.book with
    | some book =>
      simp only [TextSystem.update, hbt] at hstep
      exact inputStep_preserves_inv pressed now ih hstep
    | none =>
      cases asset with
      | none =>
        simp only [TextSystem.update, hbt] at hstep
        exact inputStep_preserves_inv pressed now ih hstep
      | some book =>
        simp only [TextSystem.update, hbt] at hstep
        cases hload : t.loadStep book with
        | error e => rw [hload] at hstep; cases hstep
        | ok t₁ =>
          rw [hload] at hstep
          refine inputStep_preserves_inv pressed now ?_ hstep
          have hsb : t.is_scoreboard = false := by
            by_contra hne
            rcases ih (by revert hne; cases t.is_scoreboard <;> simp) with ⟨b, hbb, _⟩
            rw [hbt] at hbb
            cases hbb
          intro hc
          exact absurd (loadStep_scoreboard hsb hload) (by rw [hc]; simp)

/-- C1: on the last page, a matched NextPage button makes move_next increment the
index past the end and then setup_page indexes book.pages out of range: the code
panics instead of leaving an out-of-range index with no active page. -/
theorem c1_next_page_from_last_page_panics :
    c1State.is_scoreboard = false ∧
    c1State.current_page = some c1Page ∧
    c1Page.is_final = false ∧
    scanButtons [("space", ⟨"Next", .NextPage⟩)] c1Pressed = some .NextPage ∧
    c1State.inputStep c1Pressed 0 = .error "setup_page: page index out of range" :=
  ⟨rfl, by decide, rfl, by decide, rfl⟩

/-- C2: the leaderboard store is capped at 10: recording into a store of 10
evicts exactly the single oldest (front) entry before the insertion, the store
never exceeds 10 entries, and after recording more than 10 scores in sequence
the store holds exactly the 10 most recently recorded scores. -/
theorem c2_leaderboard_cap :
    (∀ (l : List Score) (sc : Score), l.length = 10 → record l sc = l.tail ++ [sc]) ∧
    (∀ xs : List Score, (xs.foldl record []).length ≤ 10) ∧
    (∀ xs : List Score, 10 < xs.length →
      xs.foldl record [] = xs.drop (xs.length - 10)) := by
  refine ⟨fun l sc h => record_length_eq_ten sc h, fun xs => ?_, fun xs _ => foldl_record_eq xs⟩
  rw [foldl_record_eq, List.length_drop]
  omega

theorem c2_leaderboard_cap_witness :
    record c2Ten { date := 99, page_read := 99 } = c2Ten.tail ++ [{ date := 99, page_read := 99 }] ∧
    (c2Scores.foldl record []).length ≤ 10 ∧
    c2Scores.foldl record [] = c2Scores.drop (c2Scores.length - 10) :=
  ⟨c2_leaderboard_cap.1 c2Ten _ (by decide),
   c2_leaderboard_cap.2.1 c2Scores,
   c2_leaderboard_cap.2.2 c2Scores (by decide)⟩

/-- C3 counterexample: with both "y" and "n" pressed in the same tick, the first
matching entry in scan order is the "y" entry whose action is NextPage, yet the
scan resolves JumpToEnd (the "n" entry): the loop has no break and later
matches overwrite earlier ones, so the taken action is not the first match's;
running the whole tick ends on the scoreboard instead of the next page. -/
theorem c3_first_match_cex :
    c3Buttons.find? (entryMatches c3Pressed) = some ("y", ⟨"Yes", .NextPage⟩) ∧
    scanButtons c3Buttons c3Pressed = some .JumpToEnd ∧
    ButtonAction.JumpToEnd ≠ ButtonAction.NextPage ∧
    c3State.inputStep c3Pressed 0 =
      .ok (TextSystem.spawn_leaderboard { c3State with page_read := 1 } 0) ∧
    (TextSystem.spawn_leaderboard { c3State with page_read := 1 } 0).is_scoreboard = true :=
  ⟨by decide, by decide, by decide, rfl, rfl⟩

/-- C3 amended: the scan resolves the action of the LAST entry in scan order
whose key matches a pressed input (the loop overwrites without breaking); the
result is a single optional action, so at most one resolved action occurs per
tick. When at most one entry matches, this coincides with the first match. -/
theorem c3_last_match_wins (buttons : List (String × Button)) (pressed : String → Bool) :
    scanButtons buttons pressed =
      (buttons.reverse.find? (entryMatches pressed)).map (fun e => e.2.action) :=
  scanButtons_eq_last_match buttons pressed

/-- C4: a content file omitting line_spacing parses to 0, not 30: the serde
default attribute on the field uses the field type's default value (0.0 for
f32), while the hand-written Default for Book — which the deserializer does not
consult — uses 30.0. -/
theorem c4_line_spacing_serde_default_is_zero :
    (parseBook [] none []).line_spacing = 0 ∧
    Book.defaultValue.line_spacing = 30 ∧
    (parseBook [] none []).line_spacing ≠ Book.defaultValue.line_spacing :=
  ⟨rfl, rfl, by norm_num [parseBook, Book.defaultValue]⟩

/-- C5 counterexample: a session in Scoreboard mode with a loaded book and an
in-range index still gets a page from current_page — the accessor never looks
at the mode, refuting the claim that it yields None whenever mode is
Scoreboard. -/
theorem c5_scoreboard_mode_cex :
    c5State.is_scoreboard = true ∧ c5State.current_page = some c5Page := by
  decide

/-- C5 amended: current_page is independent of the session mode; it returns
None exactly when no book is loaded or the current index is out of range, and
otherwise the page at the current index — also while in Scoreboard mode. -/
theorem c5_current_page_ignores_mode (s : TextSystem) (b : Bool) :
    TextSystem.current_page { s with is_scoreboard := b } = s.current_page ∧
    (s.current_page = none ↔
      s.book = none ∨ ∃ book, s.book = some book ∧ book.pages.length ≤ s.page_index) ∧
    (∀ book, s.book = some book → s.current_page = book.pages[s.page_index]?) := by
  refine ⟨rfl, ?_, ?_⟩
  · cases hb : s.book with
    | none => simp [TextSystem.current_page, hb]
    | some book =>
      simp only [TextSystem.current_page, hb]
      simp [List.getElem?_eq_none_iff]
  · intro book hb
    simp [TextSystem.current_page, hb]

theorem c5_current_page_ignores_mode_witness :
    TextSystem.current_page { c5State with is_scoreboard := false } = c5State.current_page ∧
    (c5State.current_page = none ↔
      c5State.book = none ∨
        ∃ book, c5State.book = some book ∧ book.pages.length ≤ c5State.page_index) ∧
    (∀ book, c5State.book = some book →
      c5State.current_page = book.pages[c5State.page_index]?) :=
  c5_current_page_ignores_mode c5State false

/-- C6: on a page with is_final = true, whatever action the matched button
carries, the resolved action is replaced by JumpToEnd: the tick ends in
spawn_leaderboard, the session switches to Scoreboard mode, and no Reading
page transition happens (the page index is untouched). -/
theorem c6_final_page_override (s : TextSystem) (page : Page)
    (buttons : List (String × Button)) (matched : ButtonAction)
    (pressed : String → Bool) (now : Nat)
    (hsb : s.is_scoreboard = false)
    (hpage : s.current_page = some page)
    (hbtns : resolveButtons s page = .ok buttons)
    (hscan : scanButtons buttons pressed = some matched)
    (hfin : page.is_final = true) :
    s.inputStep pressed now =
      .ok (TextSystem.spawn_leaderboard { s with page_read := s.page_read + 1 } now) ∧
    (TextSystem.spawn_leaderboard { s with page_read := s.page_read + 1 } now).is_scoreboard
      = true ∧
    (TextSystem.spawn_leaderboard { s with page_read := s.page_read + 1 } now).page_index
      = s.page_index := by
  refine ⟨?_, rfl, rfl⟩
  rw [inputStep_reading pressed now hsb hpage hbtns hscan, hfin]
  simp

theorem c6_final_page_override_witness :
    c6State.inputStep c6Pressed 7 =
      .ok (TextSystem.spawn_leaderboard { c6State with page_read := c6State.page_read + 1 } 7) ∧
    (TextSystem.spawn_leaderboard { c6State with page_read := c6State.page_read + 1 } 7).is_scoreboard
      = true ∧
    (TextSystem.spawn_leaderboard { c6State with page_read := c6State.page_read + 1 } 7).page_index
      = c6State.page_index :=
  c6_final_page_override c6State c6Page [("space", ⟨"Next", .NextPage⟩)] .NextPage c6Pressed 7
    rfl (by decide) rfl (by decide) rfl

/-- C7: a matched non-final button with action JumpToPage(target): when no page
of the book is named target, the tick is a silent no-op apart from the
page_read increment (index, mode, scores unchanged, no crash); when some page
is named target, the state moves to the first page by ascending index bearing
that name, again with the increment applied. -/
theorem c7_jump_to_page (s : TextSystem) (book : Book) (page : Page)
    (buttons : List (String × Button)) (target : String)
    (pressed : String → Bool) (now : Nat)
    (hsb : s.is_scoreboard = false)
    (hb : s.book = some book)
    (hpage : s.current_page = some page)
    (hfin : page.is_final = false)
    (hbtns : resolveButtons s page = .ok buttons)
    (hscan : scanButtons buttons pressed = some (.JumpToPage target)) :
    (s.page_by_name target = none →
      s.inputStep pressed now = .ok { s with page_read := s.page_read + 1 }) ∧
    (∀ i, s.page_by_name target = some i →
      s.inputStep pressed now =
        .ok { s with page_read := s.page_read + 1, page_index := i } ∧
      (∃ p, book.pages[i]? = some p ∧ p.name = some target) ∧
      (∀ j < i, ∀ pj, book.pages[j]? = some pj → pj.name ≠ some target)) := by
  have hstep := inputStep_reading pressed now hsb hpage hbtns hscan
  rw [hfin] at hstep
  simp only [Bool.false_eq_true, if_false] at hstep
  have hpbn : TextSystem.page_by_name { s with page_read := s.page_read + 1 } target
      = s.page_by_name target := rfl
  constructor
  · intro hnone
    rw [hstep, TextSystem.jump_to, hpbn, hnone]
  · intro i hsome
    have hfind : findPageIdx target book.pages = some i := by
      rw [TextSystem.page_by_name, hb] at hsome
      exact hsome
    rcases findPageIdx_spec hfind with ⟨hlt, p, hpi, hpn⟩
    refine ⟨?_, ⟨p, hpi, hpn⟩, findPageIdx_first hfind⟩
    rw [hstep, TextSystem.jump_to, hpbn, hsome]
    exact setup_page_ok hb hlt

theorem c7_jump_to_page_witness :
    (c7State.page_by_name "missing" = none →
      c7State.inputStep c7Pressed 0 = .ok { c7State with page_read := c7State.page_read + 1 }) ∧
    (∀ i, c7State.page_by_name "missing" = some i →
      c7State.inputStep c7Pressed 0 =
        .ok { c7State with page_read := c7State.page_read + 1, page_index := i } ∧
      (∃ p, c7Book.pages[i]? = some p ∧ p.name = some "missing") ∧
      (∀ j < i, ∀ pj, c7Book.pages[j]? = some pj → pj.name ≠ some "missing")) :=
  c7_jump_to_page c7State c7Book c7Page
    [("y", ⟨"Go", .JumpToPage "target"⟩), ("n", ⟨"Nowhere", .JumpToPage "missing"⟩)]
    "missing" c7Pressed 0 rfl rfl (by decide) rfl rfl (by decide)

/-- C8: the ranked scoreboard view is a permutation of the store (a sorted
copy), sorted descending by page_read; it is stable — for every score value,
the entries holding it appear in exactly their original insertion order — and
recording via spawn_leaderboard leaves the store itself in insertion order
(the sort never touches the store). -/
theorem c8_ranked_view_stable_desc (l : List Score) (k : Nat) (s : TextSystem) (now : Nat) :
    List.Perm (rankedView l) l ∧
    (rankedView l).Pairwise (fun a b => b.page_read ≤ a.page_read) ∧
    (rankedView l).filter (fun sc => sc.page_read == k) =
      l.filter (fun sc => sc.page_read == k) ∧
    (TextSystem.spawn_leaderboard s now).scores =
      record s.scores { date := now, page_read := s.page_read } :=
  ⟨rankedView_perm l, rankedView_sorted l, rankedView_stable l k, rfl⟩

theorem c8_ranked_view_stable_desc_witness :
    List.Perm (rankedView c8Scores) c8Scores ∧
    (rankedView c8Scores).Pairwise (fun a b => b.page_read ≤ a.page_read) ∧
    (rankedView c8Scores).filter (fun sc => sc.page_read == 3) =
      c8Scores.filter (fun sc => sc.page_read == 3) ∧
    (TextSystem.spawn_leaderboard c8State 9).scores =
      record c8State.scores { date := 9, page_read := c8State.page_read } :=
  c8_ranked_view_stable_desc c8Scores 3 c8State 9

/-- C9: in Scoreboard mode with the (always loaded, nonempty) book, pressing
the confirm input "space" restarts: Reading mode at page index 0 with
page_read reset to 0 and nothing else changed; any tick in which "space" was
not pressed leaves the state exactly unchanged. -/
theorem c9_scoreboard_restart (s : TextSystem) (book : Book)
    (pressed : String → Bool) (now : Nat)
    (hsb : s.is_scoreboard = true)
    (hb : s.book = some book)
    (hne : book.pages ≠ []) :
    (pressed "space" = true →
      s.inputStep pressed now =
        .ok { s with page_index := 0, is_scoreboard := false, page_read := 0 }) ∧
    (pressed "space" = false → s.inputStep pressed now = .ok s) := by
  constructor
  · intro hp
    simp only [TextSystem.inputStep, hsb, if_true, hp]
    exact setup_page_ok hb (List.length_pos.mpr hne)
  · intro hp
    simp only [TextSystem.inputStep, hsb, if_true, hp, Bool.false_eq_true, if_false]

theorem c9_scoreboard_restart_witness :
    (c9Pressed "space" = true →
      c9State.inputStep c9Pressed 0 =
        .ok { c9State with page_index := 0, is_scoreboard := false, page_read := 0 }) ∧
    (c9Pressed "space" = false → c9State.inputStep c9Pressed 0 = .ok c9State) :=
  c9_scoreboard_restart c9State c9Book c9Pressed 0 rfl rfl (by decide)

/-- C10: loading a book into the pristine engine state (the only state in which
the load path runs) yields Reading mode at page index 0 with page_read 0, no
panic; the active page is the book's page 0, present exactly when the book has
at least one page — a zero-page book loads successfully with no active page. -/
theorem c10_load_resets_state (book : Book) :
    ∃ s', TextSystem.loadStep TextSystem.init book = .ok s' ∧
      s'.is_scoreboard = false ∧
      s'.page_index = 0 ∧
      s'.page_read = 0 ∧
      s'.book = some book ∧
      s'.current_page = book.pages[0]? ∧
      (s'.current_page = none ↔ book.pages = []) := by
  refine ⟨{ TextSystem.init with book := some book, page_index := 0 }, ?_, rfl, rfl, rfl, rfl,
    rfl, ?_⟩
  · rw [TextSystem.loadStep]
    cases hp : book.pages with
    | nil => simp [hp]
    | cons p rest =>
      simp only [hp, List.isEmpty_cons, Bool.not_false, if_true]
      exact @setup_page_ok _ book rfl (by simp [hp])
  · show book.pages[0]? = none ↔ book.pages = []
    cases book.pages <;> simp

theorem c10_load_resets_state_witness :
    ∃ s', TextSystem.loadStep TextSystem.init c10Book = .ok s' ∧
      s'.is_scoreboard = false ∧
      s'.page_index = 0 ∧
      s'.page_read = 0 ∧
      s'.book = some c10Book ∧
      s'.current_page = c10Book.pages[0]? ∧
      (s'.current_page = none ↔ c10Book.pages = []) :=
  c10_load_resets_state c10Book

end LD50
